import Mathlib

/-!
# CadastroPessoas service (`srv/service.js`)

A shallow embedding of the request handlers of the `CadastroPessoas` service and the
properties proved about them.

Conventions of the embedding
* A JavaScript string is the list of its UTF-16 code units (`JSString`), because
  `length` and `substring` count code units.
* A JavaScript number is `Option Int` (`JSNum`): `none` is `NaN`, `some n` the integer `n`.
  Every number the handlers compute is an integer far below `2^53`, where double
  arithmetic is exact.
* Exceptions are explicit: a step that can throw returns `Except ErroJS _`.
-/

namespace CadastroPessoas

/-! ## JavaScript values -/

/-- A JavaScript string, as the sequence of its UTF-16 code units. -/
abbrev JSString := List Nat

/-- UTF-16 code units of one Unicode scalar value. -/
def utf16Char (c : Char) : List Nat :=
  let n := c.toNat
  if n < 0x10000 then [n]
  else [0xD800 + (n - 0x10000) / 0x400, 0xDC00 + (n - 0x10000) % 0x400]

/-- UTF-16 encoding of a string literal. -/
def utf16 (s : String) : JSString :=
  (s.toList.map utf16Char).flatten

/-- A JavaScript number: `none` is `NaN`. -/
abbrev JSNum := Option Int

/-- Kinds of the values that are not modelled further. -/
inductive OutroTipo where
  | object
  | function
  | symbol
  | bigint
  deriving DecidableEq, Repr

/-- The JavaScript values a handler can be handed. `outro` stands for every value
that is neither one of the primitives listed here nor a string (objects and arrays,
functions, symbols, bigints). -/
inductive JSValue where
  | undefined
  | null
  | bool (b : Bool)
  | num (n : JSNum)
  | str (s : JSString)
  | outro (tipo : OutroTipo)
  deriving DecidableEq, Repr

/-- The `typeof` operator. -/
def typeOf : JSValue → String
  | .undefined => "undefined"
  | .null => "object"
  | .bool _ => "boolean"
  | .num _ => "number"
  | .str _ => "string"
  | .outro .object => "object"
  | .outro .function => "function"
  | .outro .symbol => "symbol"
  | .outro .bigint => "bigint"

/-- `a + b` on numbers. -/
def jsAdd (a b : JSNum) : JSNum :=
  match a, b with
  | some x, some y => some (x + y)
  | _, _ => none

/-- `a * b` on numbers. -/
def jsMul (a b : JSNum) : JSNum :=
  match a, b with
  | some x, some y => some (x * y)
  | _, _ => none

/-- `a % b` on numbers: the remainder takes the sign of the dividend and a zero
divisor gives `NaN`. -/
def jsMod (a b : JSNum) : JSNum :=
  match a, b with
  | some x, some y => if y = 0 then none else some (Int.tmod x y)
  | _, _ => none

/-- `a === b` on numbers: `NaN` is equal to nothing. -/
def strictEq (a b : JSNum) : Bool :=
  match a, b with
  | some x, some y => x == y
  | _, _ => false

/-- `a !== b` on numbers. -/
def strictNe (a b : JSNum) : Bool := !strictEq a b

/-- `String.prototype.substring(start, end)`: both indices are clamped to the length
and swapped when `start > end`. -/
def substring (s : JSString) (start fim : Nat) : JSString :=
  let a := min start s.length
  let b := min fim s.length
  let de := min a b
  let ate := max a b
  (s.drop de).take (ate - de)

/-- ASCII decimal digit, the class `\d` of a regular expression. -/
def isDigitUnit (c : Nat) : Bool := decide (48 ≤ c) && decide (c ≤ 57)

/-- The code units `parseInt` skips at the start: WhiteSpace and LineTerminator. -/
def isWhiteSpace (c : Nat) : Bool :=
  c == 9 || c == 10 || c == 11 || c == 12 || c == 13 || c == 32 || c == 160 ||
  c == 0x1680 || (decide (0x2000 ≤ c) && decide (c ≤ 0x200A)) || c == 0x2028 ||
  c == 0x2029 || c == 0x202F || c == 0x205F || c == 0x3000 || c == 0xFEFF

/-- Value of a code unit as a digit in the given radix, if it is one. -/
def digitValue (radix c : Nat) : Option Nat :=
  let v : Option Nat :=
    if 48 ≤ c ∧ c ≤ 57 then some (c - 48)
    else if 97 ≤ c ∧ c ≤ 122 then some (c - 87)
    else if 65 ≤ c ∧ c ≤ 90 then some (c - 55)
    else none
  match v with
  | some d => if d < radix then some d else none
  | none => none

/-- Sign step of `parseInt`: a leading `-` or `+` is consumed. -/
def lerSinal : JSString → Int × JSString
  | 45 :: r => (-1, r)
  | 43 :: r => (1, r)
  | s => (1, s)

/-- Radix step of `parseInt` without a radix argument: `0x` or `0X` is consumed and
selects radix 16, anything else is read in radix 10. -/
def lerBase : JSString → Nat × JSString
  | 48 :: 120 :: r => (16, r)
  | 48 :: 88 :: r => (16, r)
  | s => (10, s)

/-- The global `parseInt(string)` called without a radix: skip leading white space,
read a sign, switch to radix 16 after `0x`, read the longest run of digits; no digit
gives `NaN`. -/
def parseInt (s : JSString) : JSNum :=
  let s1 := s.dropWhile isWhiteSpace
  let (sign, s2) := lerSinal s1
  let (radix, s3) := lerBase s2
  let z := s3.takeWhile fun c => (digitValue radix c).isSome
  if z.isEmpty then none
  else some (sign * (z.foldl (fun acc c => acc * radix + (digitValue radix c).getD 0) 0 : Nat))

/-! ## `validarCPF` -/

/-- The test `/^(\d)\1{10}$/.test(cpf)`: one decimal digit followed by ten copies of
itself, and nothing else. -/
def regexDigitoRepetido (cpf : JSString) : Bool :=
  match cpf with
  | [] => false
  | c :: resto => isDigitUnit c && resto.length == 10 && resto.all (· == c)

/-- The method `validarCPF(cpf)`. -/
def validarCPF (cpf : JSValue) : Bool :=
  if typeOf cpf != "string" then false
  else match cpf with
  | .str s =>
    if s.length != 11 || regexDigitoRepetido s then false
    else
      let soma : JSNum := (List.range' 1 9).foldl
        (fun soma i => jsAdd soma (jsMul (parseInt (substring s (i - 1) i)) (some (11 - (i : Int)))))
        (some 0)
      let resto := jsMod (jsMul soma (some 10)) (some 11)
      let resto := if strictEq resto (some 10) || strictEq resto (some 11) then some 0 else resto
      if strictNe resto (parseInt (substring s 9 10)) then false
      else
        let soma : JSNum := (List.range' 1 10).foldl
          (fun soma i => jsAdd soma (jsMul (parseInt (substring s (i - 1) i)) (some (12 - (i : Int)))))
          (some 0)
        let resto := jsMod (jsMul soma (some 10)) (some 11)
        let resto := if strictEq resto (some 10) || strictEq resto (some 11) then some 0 else resto
        if strictNe resto (parseInt (substring s 10 11)) then false
        else true
  | _ => false

/-! ### The check-digit rule as the specification words it -/

/-- The digit `d_i` of a CPF, positions counted from 1. -/
def digito (cpf : JSString) (i : Nat) : Nat := cpf.getD (i - 1) 48 - 48

/-- Weighted sum of the digits `1..n`, digit `i` weighing `peso - i`. -/
def somaSpec (cpf : JSString) (n peso : Nat) : Nat :=
  ((List.range' 1 n).map fun i => digito cpf i * (peso - i)).sum

/-- The remainder `(sum * 10) mod 11`, replaced by 0 when it is 10. -/
def restoSpec (soma : Nat) : Nat :=
  let r := (soma * 10) % 11
  if r = 10 then 0 else r

/-- First check: weights 10 down to 2 over digits 1..9, compared with digit 10. -/
def primeiroDigitoOk (cpf : JSString) : Prop := restoSpec (somaSpec cpf 9 11) = digito cpf 10

/-- Second check: weights 11 down to 2 over digits 1..10, compared with digit 11. -/
def segundoDigitoOk (cpf : JSString) : Prop := restoSpec (somaSpec cpf 10 12) = digito cpf 11

instance (cpf : JSString) : Decidable (primeiroDigitoOk cpf) := by
  unfold primeiroDigitoOk; infer_instance

instance (cpf : JSString) : Decidable (segundoDigitoOk cpf) := by
  unfold segundoDigitoOk; infer_instance

/-- The remainder computed by the code from a sum, with its 10/11 clamp. -/
def restoDe (soma : JSNum) : JSNum :=
  let resto := jsMod (jsMul soma (some 10)) (some 11)
  if strictEq resto (some 10) || strictEq resto (some 11) then some 0 else resto


/-! ## Requests, errors and messages -/

/-- An exception value, as far as the handlers read it: `error.statusCode` (absent on
errors raised by the runtime) and `error.message` (the empty text when absent). -/
structure ErroJS where
  statusCode : Option Nat
  message : String
  deriving DecidableEq, Repr

/-- An error handed to the framework by `req.error(status, message)` or
`req.reject(status, message)`. -/
structure ErroReq where
  status : Nat
  message : String
  deriving DecidableEq, Repr

/-- The lookup `cds.i18n.messages.at(key, locale)`; the message bundles are not part
of the sources, so the table is a parameter. -/
abbrev Mensagens := String → String → String

/-- A request field of a declared type: missing from the payload (`undefined`),
`null`, or a value of that type. -/
inductive Campo (α : Type) where
  | ausente
  | nulo
  | valor (a : α)
  deriving DecidableEq, Repr

/-- Truthiness of a JavaScript value, as `if (x)` and `x && y` and `x || y` test it. -/
def truthy : JSValue → Bool
  | .undefined => false
  | .null => false
  | .bool b => b
  | .num none => false
  | .num (some n) => n != 0
  | .str s => !s.isEmpty
  | .outro _ => true

/-- The JavaScript value of an integer field. -/
def idadeJS : Campo Int → JSValue
  | .ausente => .undefined
  | .nulo => .null
  | .valor n => .num (some n)

/-- The JavaScript value of a string field. -/
def textoJS : Campo JSString → JSValue
  | .ausente => .undefined
  | .nulo => .null
  | .valor s => .str s

/-- The comparison `x < k` for an integer field: `undefined` converts to `NaN`, which
is below nothing, and `null` converts to 0. -/
def menorQue : Campo Int → Int → Bool
  | .ausente, _ => false
  | .nulo, k => decide (0 < k)
  | .valor n, k => decide (n < k)

/-- `a || b` on a status code. -/
def statusOu (a : Option Nat) (b : Nat) : Nat :=
  match a with
  | some c => if c != 0 then c else b
  | none => b

/-- `a || b` on a message text. -/
def textoOu (a b : String) : String := if a != "" then a else b

/-! ## `validarDados` -/

/-- Modelled from the spec: the entity declaration of `Pessoas` is not among the sources;
the data model gives `cpf` as a string and `idade` as an integer. These are the fields of
`req.data` that `validarDados` reads. -/
structure DadosPessoa where
  cpf : Campo JSString
  idade : Campo Int
  deriving DecidableEq, Repr

/-- The method `validarDados(req)`: the errors it records with `req.error`, in order. -/
def validarDados (i18n : Mensagens) (locale : String) (data : DadosPessoa) : List ErroReq :=
  let erros : List ErroReq := []
  let erros :=
    if truthy (idadeJS data.idade) && menorQue data.idade 16 then
      erros ++ [⟨400, i18n "ERROR_WRONG_YEAR" locale⟩]
    else erros
  let erros :=
    if truthy (textoJS data.cpf) && !validarCPF (textoJS data.cpf) then
      erros ++ [⟨400, i18n "ERROR_WRONG_CPF" locale⟩]
    else erros
  erros

/-! ## `consultarApiCep` -/

/-- A plain object: its own properties in insertion order. -/
abbrev Objeto := List (String × JSValue)

/-- Property read `o.k`: `undefined` when the object has no such property. -/
def obterCampo (o : Objeto) (k : String) : JSValue :=
  match o with
  | [] => .undefined
  | (k1, v) :: resto => if k1 = k then v else obterCampo resto k

/-- Property write as an object literal does it: an existing property keeps its place
and takes the new value, a new one is added at the end. -/
def definirCampo (o : Objeto) (k : String) (v : JSValue) : Objeto :=
  match o with
  | [] => [(k, v)]
  | (k1, v1) :: resto => if k1 = k then (k1, v) :: resto else (k1, v1) :: definirCampo resto k v

/-- The external service: the outcome of the `n`-th call `BrasilAPI.get` of a request,
made for the postal code `cep` (the path is `/cep/v1/` followed by `cep`). A call
either resolves to the response object or throws; `.error` also stands for a response
that the destructuring inside the `try` block cannot take apart. -/
abbrev BrasilAPI := Nat → JSValue → Except ErroJS Objeto

/-- The object literal `{ ...enderecos[i], uf, cidade, rua }` with `uf`, `cidade` and
`rua` destructured from the response as `state`, `city` and `street`. -/
def enriquecer (endereco resposta : Objeto) : Objeto :=
  let uf := obterCampo resposta "state"
  let cidade := obterCampo resposta "city"
  let rua := obterCampo resposta "street"
  definirCampo (definirCampo (definirCampo endereco "uf" uf) "cidade" cidade) "rua" rua

/-- What one run of `consultarApiCep` leaves behind. -/
structure ResultadoCep where
  /-- The error of `req.reject`, if the request was rejected. -/
  rejeicao : Option ErroReq
  /-- The list `req.data.enderecos` after the run. -/
  enderecos : List Objeto
  /-- The postal codes looked up, in call order. -/
  consultas : List JSValue
  deriving DecidableEq, Repr

/-- The `for` loop of `consultarApiCep` from index `i` on, over the addresses not yet
visited. `req.reject` throws, which ends the loop. -/
def consultarDesde (BrasilAPI : BrasilAPI) (i18n : Mensagens) (locale : String) :
    Nat → List Objeto → ResultadoCep
  | _, [] => ⟨none, [], []⟩
  | i, endereco :: resto =>
    let cep := obterCampo endereco "CEP"
    match BrasilAPI i cep with
    | .ok resposta =>
      let r := consultarDesde BrasilAPI i18n locale (i + 1) resto
      ⟨r.rejeicao, enriquecer endereco resposta :: r.enderecos, cep :: r.consultas⟩
    | .error error =>
      ⟨some ⟨statusOu error.statusCode 500, textoOu error.message (i18n "ERROR_API_CEP" locale)⟩,
        endereco :: resto, [cep]⟩

/-- The method `consultarApiCep(req, BrasilAPI)`; `enderecos` is `none` when the
payload has no address list. -/
def consultarApiCep (BrasilAPI : BrasilAPI) (i18n : Mensagens) (locale : String)
    (enderecos : Option (List Objeto)) : Option ResultadoCep :=
  match enderecos with
  | none => none
  | some l => some (consultarDesde BrasilAPI i18n locale 0 l)

/-! ## Storage -/

/-- Modelled from the spec: the entity declaration of `Pessoas` is not among the sources.
A stored person with the addresses it owns. -/
structure Pessoa where
  cpf : JSString
  idade : Campo Int
  enderecos : List Objeto
  deriving DecidableEq, Repr

/-- Modelled from the spec: the entity declaration of `log.LogDelecoes` is not among the
sources. A row of the deletion log, which holds the `cpf` of the deleted person. -/
structure LogDelecao where
  cpf : JSString
  deriving DecidableEq, Repr

/-- The state outside the handlers: both tables and, for the storage operations still
to come, whether each one works (`none`) or throws; operations past the end of the
schedule work. -/
structure Mundo where
  pessoas : List Pessoa
  logDelecoes : List LogDelecao
  falhas : List (Option ErroJS)
  deriving DecidableEq, Repr

/-- Take the outcome scheduled for the next storage operation. -/
def proximaFalha (m : Mundo) : Option ErroJS × Mundo :=
  match m.falhas with
  | [] => (none, m)
  | f :: fs => (f, { m with falhas := fs })

/-- The query `SELECT.one.from(Pessoas).where({ cpf })`. -/
def selectOnePessoa (m : Mundo) (cpf : JSString) : Except ErroJS (Option Pessoa) × Mundo :=
  match proximaFalha m with
  | (some e, m1) => (.error e, m1)
  | (none, m1) => (.ok (m1.pessoas.find? fun p => p.cpf == cpf), m1)

/-- Rows of `Pessoas` joined with their addresses, projected on `cpf` and
`enderecos.CEP as cep`: a person without address gives one row with a null `cep`. -/
def linhasEndereco (p : Pessoa) : List (JSString × JSValue) :=
  match p.enderecos with
  | [] => [(p.cpf, .null)]
  | es => es.map fun e => (p.cpf, obterCampo e "CEP")

/-- The query `SELECT.one.from(Pessoas).columns("cpf", "enderecos.CEP as cep").where({ cpf })`. -/
def selectOneEndereco (m : Mundo) (cpf : JSString) :
    Except ErroJS (Option (JSString × JSValue)) × Mundo :=
  match proximaFalha m with
  | (some e, m1) => (.error e, m1)
  | (none, m1) =>
    (.ok (((m1.pessoas.filter fun p => p.cpf == cpf).map linhasEndereco).flatten.head?), m1)

/-- The statement `DELETE.from(Pessoas).where({ cpf })`; addresses go with their
person. Resolves to the number of persons deleted. -/
def deleteFromPessoas (m : Mundo) (cpf : JSString) : Except ErroJS Nat × Mundo :=
  match proximaFalha m with
  | (some e, m1) => (.error e, m1)
  | (none, m1) =>
    (.ok (m1.pessoas.filter fun p => p.cpf == cpf).length,
      { m1 with pessoas := m1.pessoas.filter fun p => !(p.cpf == cpf) })

/-- The statement `INSERT.into(logDelecoes).entries(entry)` run in a transaction of
its own. -/
def insertLogDelecoes (m : Mundo) (entry : LogDelecao) : Except ErroJS Unit × Mundo :=
  match proximaFalha m with
  | (some e, m1) => (.error e, m1)
  | (none, m1) => (.ok (), { m1 with logDelecoes := m1.logDelecoes ++ [entry] })

/-! ## `validarEndereco`, `checarCPFExiste`, `criarLogDelecoes` -/

/-- The method `validarEndereco(cpf, Pessoas)`. -/
def validarEndereco (m : Mundo) (cpf : JSString) : Bool × Mundo :=
  match selectOneEndereco m cpf with
  | (.ok (some endereco), m1) => if truthy endereco.2 then (true, m1) else (false, m1)
  | (.ok none, m1) => (false, m1)
  | (.error _, m1) => (false, m1)

/-- The method `checarCPFExiste(cpf)`. -/
def checarCPFExiste (m : Mundo) (cpf : JSString) : Bool × Mundo :=
  match selectOnePessoa m cpf with
  | (.ok result, m1) => (if result.isSome then true else false, m1)
  | (.error _, m1) => (false, m1)

/-- The method `criarLogDelecoes(req)`, with `cpf` for `req.data.cpf`. -/
def criarLogDelecoes (m : Mundo) (cpf : JSString) : Except ErroJS Unit × Mundo :=
  insertLogDelecoes m ⟨cpf⟩

/-! ## `deletarCadastros` -/

/-- The names in scope where `deletarCadastros` evaluates `DELETE.from(Pessoas)`: its
destructured parameters and its locals, the bindings at the top of `service.js`, and
the query builders that `cds` installs as globals (the built-in globals of the language
are left out; none of them is called `Pessoas`). `Pessoas` is declared as a `const`
inside `init` and inside `checarCPFExiste` only. -/
def escopoDeletarCadastros : List String :=
  ["locale", "cpfs", "result", "cpf", "hasAddress", "cds", "INFO", "ERROR", "CadastroPessoas",
    "SELECT", "INSERT", "UPSERT", "UPDATE", "DELETE", "CREATE", "DROP"]

/-- Evaluation of an identifier: a name without binding throws a `ReferenceError`. -/
def resolver (escopo : List String) (nome : String) : Except ErroJS Unit :=
  if nome ∈ escopo then .ok () else .error ⟨none, nome ++ " is not defined"⟩

/-- One entry of the list `deletarCadastros` answers. -/
structure ResultadoDelecao where
  cpf : JSString
  message : String
  deriving DecidableEq, Repr

/-- The body of the `try` block of `deletarCadastros`: the argument `Pessoas` is
evaluated, then the delete statement runs. -/
def tentarDelete (m : Mundo) (cpf : JSString) : Except ErroJS Nat × Mundo :=
  match resolver escopoDeletarCadastros "Pessoas" with
  | .error e => (.error e, m)
  | .ok () => deleteFromPessoas m cpf

/-- The `for ... of` loop of `deletarCadastros` over the CPFs still to process, with
the `result` array so far. -/
def deletarDesde (i18n : Mensagens) (locale : String) :
    List JSString → List ResultadoDelecao → Mundo → List ResultadoDelecao × Mundo
  | [], result, m => (result, m)
  | cpf :: resto, result, m =>
    let (existe, m1) := checarCPFExiste m cpf
    if !existe then
      deletarDesde i18n locale resto (result ++ [⟨cpf, i18n "ERROR_CPF_NOT_FOUND" locale⟩]) m1
    else
      let (hasAddress, m2) := validarEndereco m1 cpf
      if hasAddress then
        deletarDesde i18n locale resto (result ++ [⟨cpf, i18n "ERROR_HAS_ADDRESS" locale⟩]) m2
      else
        match tentarDelete m2 cpf with
        | (.ok _, m3) =>
          deletarDesde i18n locale resto (result ++ [⟨cpf, i18n "SUCCESS_DELETE" locale⟩]) m3
        | (.error error, m3) =>
          deletarDesde i18n locale resto
            (result ++ [⟨cpf, textoOu error.message (i18n "ERROR_DELETE_FAILED" locale)⟩]) m3

/-- The method `deletarCadastros({ locale, data: { cpfs } })`: `.ok result` when it
returns, `.error` when it throws. -/
def deletarCadastros (i18n : Mensagens) (locale : String) (cpfs : List JSString) (m : Mundo) :
    Except ErroJS (List ResultadoDelecao) × Mundo :=
  let (result, m1) := deletarDesde i18n locale cpfs [] m
  (.ok result, m1)

/-! ## `DELETE` on `Pessoas` -/

/-- What a `before` handler leaves on a request: the rejection it raised, if any, and
the listeners it registered for `succeeded`. -/
structure EfeitoBefore where
  rejeicao : Option ErroReq
  aoSucesso : List (Mundo → Except ErroJS Unit × Mundo)

/-- The handler `this.before("DELETE", Pessoas, ...)` of `init`, for a request whose
key is `cpf`: it registers `criarLogDelecoes` for `succeeded` and does nothing else. -/
def beforeDelete (cpf : JSString) : EfeitoBefore :=
  ⟨none, [fun m => criarLogDelecoes m cpf]⟩

/-- Run the `succeeded` listeners in order, each one awaited; a listener that throws
ends the run with its error. -/
def emitirSucesso :
    List (Mundo → Except ErroJS Unit × Mundo) → Mundo → Except ErroJS Unit × Mundo
  | [], m => (.ok (), m)
  | f :: fs, m =>
    match f m with
    | (.ok (), m1) => emitirSucesso fs m1
    | (.error e, m1) => (.error e, m1)

/-- Outcome of a `DELETE` request: the error the request answers with, `none` when the
request succeeds. -/
structure RespostaDelete where
  erro : Option ErroReq
  deriving DecidableEq, Repr

/-- How the framework serves `DELETE Pessoas(cpf)`. The `before` handler runs and may
reject. The generic handler deletes the person from storage; when it deleted nobody it
reads the person once more and the request answers 404. After the commit the
`succeeded` listeners run; the handlers have no `catch` around them, so a listener that
throws makes the request answer with that error (status 500 when the error has none),
the delete staying committed. -/
def processarDelete (m : Mundo) (cpf : JSString) : RespostaDelete × Mundo :=
  let efeito := beforeDelete cpf
  match efeito.rejeicao with
  | some erro => (⟨some erro⟩, m)
  | none =>
    match deleteFromPessoas m cpf with
    | (.error e, m1) => (⟨some ⟨statusOu e.statusCode 500, e.message⟩⟩, m1)
    | (.ok n, m1) =>
      if n = 0 then
        match selectOnePessoa m1 cpf with
        | (.error e, m2) => (⟨some ⟨statusOu e.statusCode 500, e.message⟩⟩, m2)
        | (.ok _, m2) => (⟨some ⟨404, "Not Found"⟩⟩, m2)
      else
        match emitirSucesso efeito.aoSucesso m1 with
        | (.ok (), m2) => (⟨none⟩, m2)
        | (.error e, m2) => (⟨some ⟨statusOu e.statusCode 500, e.message⟩⟩, m2)

/-! ## Example data -/

/-- A message table that answers the key itself. -/
def mensagensExemplo : Mensagens := fun key _ => key

/-- A store with person `B`, who has an address with a postal code, and person `C`,
who has no address; the log is empty and every storage operation works. -/
def mundoExemplo : Mundo :=
  { pessoas := [⟨utf16 "B", .valor 30, [[("CEP", .str (utf16 "01001000"))]]⟩,
      ⟨utf16 "C", .valor 20, []⟩],
    logDelecoes := [],
    falhas := [] }

/-- The store `mundoExemplo` with a log that has one row already, where the first
storage operation to come works and the second one throws. -/
def mundoAuditoriaFalha : Mundo :=
  { mundoExemplo with
    logDelecoes := [⟨utf16 "Z"⟩],
    falhas := [none, some ⟨none, "insert failed"⟩] }

/-- Two addresses, as the payload of a request carries them. -/
def enderecosExemplo : List Objeto :=
  [[("CEP", .str (utf16 "01001000")), ("numero", .num (some 100))],
    [("CEP", .str (utf16 "00000000"))]]

/-- A postal-code service that knows `01001000` and answers 404 for anything else. -/
def apiExemplo : BrasilAPI := fun _ cep =>
  if cep = .str (utf16 "01001000") then
    .ok [("cep", cep), ("state", .str (utf16 "SP")), ("city", .str (utf16 "Sao Paulo")),
      ("street", .str (utf16 "Praca da Se"))]
  else .error ⟨some 404, "CEP nao encontrado"⟩

/-! ## Lemmas about `parseInt` and `validarCPF` -/

theorem lerSinal_single (c : Nat) (h45 : c ≠ 45) (h43 : c ≠ 43) : lerSinal [c] = (1, [c]) := by
  unfold lerSinal
  split <;> simp_all

theorem lerBase_single (c : Nat) : lerBase [c] = (10, [c]) := by
  unfold lerBase
  split <;> simp_all

theorem parseInt_single (c : Nat) :
    parseInt [c] = if isDigitUnit c then some ((c : Int) - 48) else none := by
  by_cases hw : isWhiteSpace c = true
  · have hd : isDigitUnit c = false := by
      simp [isWhiteSpace, isDigitUnit] at hw ⊢
      omega
    simp [parseInt, List.dropWhile, hw, hd, lerSinal, lerBase]
  · by_cases h45 : c = 45
    · subst h45; decide
    · by_cases h43 : c = 43
      · subst h43; decide
      · by_cases hd : isDigitUnit c = true
        · have hb : 48 ≤ c ∧ c ≤ 57 := by simpa [isDigitUnit] using hd
          have hv : digitValue 10 c = some (c - 48) := by
            have : c - 48 < 10 := by omega
            simp [digitValue, hb, this]
          simp [parseInt, List.dropWhile, hw, hd, List.takeWhile, hv, lerSinal_single c h45 h43,
            lerBase_single]
          omega
        · have hv : digitValue 10 c = none := by
            simp [isDigitUnit] at hd
            simp only [digitValue]
            split_ifs <;> simp <;> omega
          simp [parseInt, List.dropWhile, hw, hd, List.takeWhile, hv, lerSinal_single c h45 h43,
            lerBase_single]

theorem substring_single (s : JSString) (i : Nat) (h : i < s.length) :
    substring s i (i + 1) = [s.getD i 48] := by
  have h1 : min i s.length = i := by omega
  have h2 : min (i + 1) s.length = i + 1 := by omega
  simp only [substring, h1, h2]
  have h3 : min i (i + 1) = i := by omega
  have h4 : max i (i + 1) - i = 1 := by omega
  rw [h3, h4]
  induction s generalizing i with
  | nil => simp at h
  | cons a t ih =>
    cases i with
    | zero => simp
    | succ j =>
      simp at h
      simpa using ih j (by omega) (by omega) (by omega) (by omega) (by omega)

theorem parseInt_substring (s : JSString) (i : Nat) (h : i < s.length)
    (hd : ∀ c ∈ s, isDigitUnit c = true) :
    parseInt (substring s i (i + 1)) = some ((digito s (i + 1) : Nat) : Int) := by
  rw [substring_single s i h, parseInt_single]
  have hm : s.getD i 48 ∈ s := by
    rw [List.getD_eq_getElem _ _ h]
    exact List.getElem_mem _
  have hb := hd _ hm
  rw [hb]
  simp only [isDigitUnit, Bool.and_eq_true, decide_eq_true_eq] at hb
  simp only [digito, if_true, Nat.add_sub_cancel]
  congr 1
  omega

@[simp] theorem jsAdd_none_left (b : JSNum) : jsAdd none b = none := by
  cases b <;> rfl

@[simp] theorem jsAdd_none_right (a : JSNum) : jsAdd a none = none := by
  cases a <;> rfl

@[simp] theorem jsMul_none_left (b : JSNum) : jsMul none b = none := by
  cases b <;> rfl

@[simp] theorem jsMul_none_right (a : JSNum) : jsMul a none = none := by
  cases a <;> rfl

@[simp] theorem jsMod_none_left (b : JSNum) : jsMod none b = none := by
  cases b <;> rfl

@[simp] theorem strictEq_none_left (b : JSNum) : strictEq none b = false := by
  cases b <;> rfl

@[simp] theorem strictEq_none_right (a : JSNum) : strictEq a none = false := by
  cases a <;> rfl

/-- The summation loop over decimal digits computes the weighted sum. -/
theorem foldl_soma_digits (s : JSString) (peso : Nat) (hd : ∀ c ∈ s, isDigitUnit c = true)
    (l : List Nat) (hl : ∀ i ∈ l, 1 ≤ i ∧ i ≤ s.length ∧ i ≤ peso) (a : Int) :
    l.foldl (fun soma i =>
        jsAdd soma (jsMul (parseInt (substring s (i - 1) i)) (some ((peso : Int) - (i : Int)))))
      (some a)
      = some (a + (((l.map fun i => digito s i * (peso - i)).sum : Nat) : Int)) := by
  induction l generalizing a with
  | nil => simp
  | cons i t ih =>
    have hi := hl i (List.mem_cons_self _ _)
    have hp : parseInt (substring s (i - 1) i) = some ((digito s i : Nat) : Int) := by
      have := parseInt_substring s (i - 1) (by omega) hd
      rwa [Nat.sub_add_cancel hi.1] at this
    rw [List.foldl_cons, hp]
    have hstep : jsAdd (some a) (jsMul (some ((digito s i : Nat) : Int)) (some ((peso : Int) - (i : Int))))
        = some (a + ((digito s i : Nat) : Int) * ((peso : Int) - (i : Int))) := rfl
    rw [hstep, ih (fun j hj => hl j (List.mem_cons_of_mem _ hj))]
    simp only [List.map_cons, List.sum_cons]
    congr 1
    push_cast [Nat.cast_sub hi.2.2]
    ring

/-- The summation loop is `NaN` as soon as one summand is. -/
theorem foldl_soma_none (s : JSString) (peso : Int) (l : List Nat) :
    l.foldl (fun soma i =>
        jsAdd soma (jsMul (parseInt (substring s (i - 1) i)) (some (peso - (i : Int)))))
      none = none := by
  induction l with
  | nil => rfl
  | cons i t ih => simpa using ih

theorem foldl_soma_nan (s : JSString) (peso : Int) (l : List Nat) (a : JSNum)
    (h : ∃ i ∈ l, parseInt (substring s (i - 1) i) = none) :
    l.foldl (fun soma i =>
        jsAdd soma (jsMul (parseInt (substring s (i - 1) i)) (some (peso - (i : Int)))))
      a = none := by
  induction l generalizing a with
  | nil => simp at h
  | cons i t ih =>
    rcases h with ⟨j, hj, hn⟩
    rcases List.mem_cons.mp hj with rfl | hjt
    · simp only [List.foldl_cons, hn, jsMul_none_left, jsAdd_none_right]
      exact foldl_soma_none s peso t
    · simp only [List.foldl_cons]
      exact ih _ ⟨j, hjt, hn⟩

theorem restoDe_none : restoDe none = none := rfl

theorem restoDe_nat (S : Nat) : restoDe (some (S : Int)) = some ((restoSpec S : Nat) : Int) := by
  have hm : Int.tmod ((S : Int) * 10) 11 = (((S * 10) % 11 : Nat) : Int) := by
    rw [Int.tmod_eq_emod (by positivity) (by norm_num)]
    push_cast
    rfl
  have hlt : (S * 10) % 11 < 11 := Nat.mod_lt _ (by norm_num)
  have hj : jsMod (jsMul (some (S : Int)) (some 10)) (some 11)
      = some (((S * 10) % 11 : Nat) : Int) := by
    show (if (11 : Int) = 0 then none else some (Int.tmod ((S : Int) * 10) 11)) = _
    rw [if_neg (by norm_num), hm]
  have hs : ∀ x y : Int, strictEq (some x) (some y) = (x == y) := fun _ _ => rfl
  simp only [restoDe, hj, hs, restoSpec]
  by_cases h10 : (S * 10) % 11 = 10
  · simp [h10]
  · have e10 : ((((S * 10) % 11 : Nat) : Int) == 10) = false := by
      simp only [beq_eq_false_iff_ne, ne_eq]
      omega
    have e11 : ((((S * 10) % 11 : Nat) : Int) == 11) = false := by
      simp only [beq_eq_false_iff_ne, ne_eq]
      omega
    simp only [e10, e11, h10, Bool.or_self, Bool.false_eq_true, if_false]

/-- Unfolding of `validarCPF` on a string. -/
theorem validarCPF_str (s : JSString) :
    validarCPF (.str s) =
      (if s.length != 11 || regexDigitoRepetido s then false
       else if strictNe (restoDe ((List.range' 1 9).foldl
          (fun soma i => jsAdd soma (jsMul (parseInt (substring s (i - 1) i)) (some (11 - (i : Int)))))
          (some 0))) (parseInt (substring s 9 10)) then false
       else if strictNe (restoDe ((List.range' 1 10).foldl
          (fun soma i => jsAdd soma (jsMul (parseInt (substring s (i - 1) i)) (some (12 - (i : Int)))))
          (some 0))) (parseInt (substring s 10 11)) then false
       else true) := by
  rfl

theorem strictNe_false_iff (a b : JSNum) :
    strictNe a b = false ↔ ∃ x : Int, a = some x ∧ b = some x := by
  cases a with
  | none => simp [strictNe]
  | some x =>
    cases b with
    | none => simp [strictNe]
    | some y =>
      simp only [strictNe, strictEq, Bool.not_eq_false', beq_iff_eq, Option.some.injEq]
      constructor
      · rintro rfl
        exact ⟨x, rfl, rfl⟩
      · rintro ⟨z, rfl, rfl⟩
        rfl

theorem restoDe_some (a : JSNum) (x : Int) (h : restoDe a = some x) : ∃ y, a = some y := by
  cases a with
  | none => simp [restoDe_none] at h
  | some y => exact ⟨y, rfl⟩

/-- A code unit whose one-unit substring parses to a number is a decimal digit. -/
theorem digit_of_parseInt (s : JSString) (i : Nat) (h : i < s.length)
    (hp : parseInt (substring s i (i + 1)) ≠ none) : isDigitUnit (s.getD i 48) = true := by
  rw [substring_single s i h, parseInt_single] at hp
  by_contra hc
  rw [if_neg hc] at hp
  exact hp rfl

/-- What `validarCPF` needs to answer `true`, read off the code. -/
theorem validarCPF_true_parts (s : JSString) (h : validarCPF (.str s) = true) :
    s.length = 11 ∧ regexDigitoRepetido s = false ∧
    (∃ x : Int, restoDe ((List.range' 1 9).foldl
          (fun soma i => jsAdd soma (jsMul (parseInt (substring s (i - 1) i)) (some (11 - (i : Int)))))
          (some 0)) = some x ∧ parseInt (substring s 9 10) = some x) ∧
    (∃ x : Int, restoDe ((List.range' 1 10).foldl
          (fun soma i => jsAdd soma (jsMul (parseInt (substring s (i - 1) i)) (some (12 - (i : Int)))))
          (some 0)) = some x ∧ parseInt (substring s 10 11) = some x) := by
  rw [validarCPF_str] at h
  split_ifs at h with h1 h2 h3
  simp only [Bool.or_eq_true, bne_iff_ne, ne_eq, not_or, not_not, Bool.not_eq_true] at h1
  simp only [Bool.not_eq_true] at h2 h3
  exact ⟨h1.1, h1.2, (strictNe_false_iff _ _).mp h2, (strictNe_false_iff _ _).mp h3⟩

/-- An accepted CPF consists of 11 decimal digits. -/
theorem validarCPF_true_digits (s : JSString) (h : validarCPF (.str s) = true) :
    s.length = 11 ∧ ∀ c ∈ s, isDigitUnit c = true := by
  obtain ⟨hlen, _, ⟨x, hx, hp10⟩, ⟨y, _, hp11⟩⟩ := validarCPF_true_parts s h
  refine ⟨hlen, ?_⟩
  obtain ⟨a, ha⟩ := restoDe_some _ _ hx
  have hpos : ∀ i, i < 11 → isDigitUnit (s.getD i 48) = true := by
    intro i hi
    by_cases h9 : i < 9
    · apply digit_of_parseInt s i (by omega)
      intro hn
      have := foldl_soma_nan s 11 (List.range' 1 9) (some 0)
        ⟨i + 1, List.mem_range'_1.mpr (by omega), by simpa using hn⟩
      rw [this] at ha
      exact Option.noConfusion ha
    · by_cases h10 : i = 9
      · subst h10
        apply digit_of_parseInt s 9 (by omega)
        rw [hp10]; exact Option.noConfusion
      · have h11 : i = 10 := by omega
        subst h11
        apply digit_of_parseInt s 10 (by omega)
        rw [hp11]; exact Option.noConfusion
  intro c hc
  obtain ⟨i, hi, rfl⟩ := List.getElem_of_mem hc
  have := hpos i (by omega)
  rwa [List.getD_eq_getElem _ _ hi] at this

theorem soma1_digits (s : JSString) (hlen : s.length = 11) (hd : ∀ c ∈ s, isDigitUnit c = true) :
    (List.range' 1 9).foldl
      (fun soma i => jsAdd soma (jsMul (parseInt (substring s (i - 1) i)) (some (11 - (i : Int)))))
      (some 0) = some ((somaSpec s 9 11 : Nat) : Int) := by
  have h := foldl_soma_digits s 11 hd (List.range' 1 9)
    (fun i hi => by have := List.mem_range'_1.mp hi; omega) 0
  simp only [Nat.cast_ofNat, zero_add] at h
  exact h

theorem soma2_digits (s : JSString) (hlen : s.length = 11) (hd : ∀ c ∈ s, isDigitUnit c = true) :
    (List.range' 1 10).foldl
      (fun soma i => jsAdd soma (jsMul (parseInt (substring s (i - 1) i)) (some (12 - (i : Int)))))
      (some 0) = some ((somaSpec s 10 12 : Nat) : Int) := by
  have h := foldl_soma_digits s 12 hd (List.range' 1 10)
    (fun i hi => by have := List.mem_range'_1.mp hi; omega) 0
  simp only [Nat.cast_ofNat, zero_add] at h
  exact h

theorem strictNe_natCast (a b : Nat) : strictNe (some (a : Int)) (some (b : Int)) = !decide (a = b) := by
  by_cases h : a = b
  · subst h; simp [strictNe, strictEq]
  · have : ((a : Int) == (b : Int)) = false := by
      simp only [beq_eq_false_iff_ne, ne_eq]
      omega
    simp [strictNe, strictEq, this, h]

/-- On 11 decimal digits `validarCPF` is the repeated-digit test and the two check-digit
rules of the specification. -/
theorem validarCPF_digits (s : JSString) (hlen : s.length = 11)
    (hd : ∀ c ∈ s, isDigitUnit c = true) :
    validarCPF (.str s) = true ↔
      regexDigitoRepetido s = false ∧ primeiroDigitoOk s ∧ segundoDigitoOk s := by
  have hp10 := parseInt_substring s 9 (by omega) hd
  have hp11 := parseInt_substring s 10 (by omega) hd
  rw [validarCPF_str, soma1_digits s hlen hd, soma2_digits s hlen hd, restoDe_nat, restoDe_nat,
    hp10, hp11, strictNe_natCast, strictNe_natCast]
  simp only [hlen, primeiroDigitoOk, segundoDigitoOk]
  by_cases hr : regexDigitoRepetido s = true
  · simp [hr]
  · by_cases h1 : restoSpec (somaSpec s 9 11) = digito s 10
    · by_cases h2 : restoSpec (somaSpec s 10 12) = digito s 11
      · simp [hr, h1, h2]
      · simp [hr, h1, h2]
    · simp [hr, h1]

theorem regexDigitoRepetido_iff (s : JSString) :
    regexDigitoRepetido s = true ↔ ∃ c, isDigitUnit c = true ∧ s = List.replicate 11 c := by
  cases s with
  | nil => simp [regexDigitoRepetido, List.replicate]
  | cons a t =>
    simp only [regexDigitoRepetido, Bool.and_eq_true, beq_iff_eq, List.all_eq_true]
    constructor
    · rintro ⟨⟨hd, hl⟩, hall⟩
      refine ⟨a, hd, ?_⟩
      have : t = List.replicate 10 a := List.eq_replicate_iff.mpr ⟨hl, hall⟩
      rw [this]
      rfl
    · rintro ⟨c, hd, hs⟩
      have hs2 : a :: t = c :: List.replicate 10 c := hs
      injection hs2 with h1 h2
      subst h1
      refine ⟨⟨hd, ?_⟩, ?_⟩
      · rw [h2]; simp
      · intro x hx
        rw [h2] at hx
        exact List.eq_of_mem_replicate hx

theorem somaSpec_congr (s t : JSString) (n peso : Nat)
    (h : ∀ i, i < n → s.getD i 48 = t.getD i 48) : somaSpec s n peso = somaSpec t n peso := by
  unfold somaSpec
  congr 1
  apply List.map_congr_left
  intro i hi
  have hi2 := List.mem_range'_1.mp hi
  have : digito s i = digito t i := by
    unfold digito
    rw [h (i - 1) (by omega)]
  rw [this]

theorem digito_inj (s t : JSString) (i : Nat) (hs : isDigitUnit (s.getD (i - 1) 48) = true)
    (ht : isDigitUnit (t.getD (i - 1) 48) = true) (h : digito s i = digito t i) :
    s.getD (i - 1) 48 = t.getD (i - 1) 48 := by
  simp only [isDigitUnit, Bool.and_eq_true, decide_eq_true_eq] at hs ht
  unfold digito at h
  omega

theorem getD_digit (s : JSString) (hd : ∀ c ∈ s, isDigitUnit c = true) (i : Nat) (h : i < s.length) :
    isDigitUnit (s.getD i 48) = true := by
  rw [List.getD_eq_getElem _ _ h]
  exact hd _ (List.getElem_mem _)

/-- Two accepted CPFs with the same first nine code units are the same string. -/
theorem validarCPF_determined (c d : JSString) (hc : validarCPF (.str c) = true)
    (hdv : validarCPF (.str d) = true) (h9 : ∀ i, i < 9 → c.getD i 48 = d.getD i 48) : c = d := by
  obtain ⟨hlc, hdc⟩ := validarCPF_true_digits c hc
  obtain ⟨hld, hdd⟩ := validarCPF_true_digits d hdv
  obtain ⟨_, hc1, hc2⟩ := (validarCPF_digits c hlc hdc).mp hc
  obtain ⟨_, hd1, hd2⟩ := (validarCPF_digits d hld hdd).mp hdv
  unfold primeiroDigitoOk at hc1 hd1
  unfold segundoDigitoOk at hc2 hd2
  have e9 : c.getD 9 48 = d.getD 9 48 := by
    apply digito_inj c d 10 (getD_digit c hdc 9 (by omega)) (getD_digit d hdd 9 (by omega))
    rw [← hc1, ← hd1, somaSpec_congr c d 9 11 h9]
  have h10 : ∀ i, i < 10 → c.getD i 48 = d.getD i 48 := by
    intro i hi
    by_cases h : i < 9
    · exact h9 i h
    · have : i = 9 := by omega
      subst this
      exact e9
  have e10 : c.getD 10 48 = d.getD 10 48 := by
    apply digito_inj c d 11 (getD_digit c hdc 10 (by omega)) (getD_digit d hdd 10 (by omega))
    rw [← hc2, ← hd2, somaSpec_congr c d 10 12 h10]
  apply List.ext_getElem (by omega)
  intro i h1 h2
  have : c.getD i 48 = d.getD i 48 := by
    by_cases h : i < 10
    · exact h10 i h
    · have : i = 10 := by omega
      subst this
      exact e10
  rwa [List.getD_eq_getElem _ _ h1, List.getD_eq_getElem _ _ h2] at this

/-! ## Lemmas about `validarDados` -/

/-- The errors of `validarDados`, field by field: the age error for an integer age
other than 0 that is below 16, the CPF error for a string other than the empty one that
`validarCPF` rejects. -/
theorem validarDados_erros (i18n : Mensagens) (locale : String) (data : DadosPessoa) :
    validarDados i18n locale data =
      (match data.idade with
        | .valor n => if n ≠ 0 ∧ n < 16 then [⟨400, i18n "ERROR_WRONG_YEAR" locale⟩] else []
        | _ => []) ++
      (match data.cpf with
        | .valor s =>
          if s ≠ [] ∧ validarCPF (.str s) = false then [⟨400, i18n "ERROR_WRONG_CPF" locale⟩]
          else []
        | _ => []) := by
  obtain ⟨cpf, idade⟩ := data
  cases idade with
  | ausente =>
    cases cpf with
    | ausente => rfl
    | nulo => rfl
    | valor s =>
      cases s with
      | nil => rfl
      | cons a t =>
        cases h : validarCPF (.str (a :: t)) <;>
          simp [validarDados, idadeJS, textoJS, truthy, menorQue, h]
  | nulo =>
    cases cpf with
    | ausente => rfl
    | nulo => rfl
    | valor s =>
      cases s with
      | nil => rfl
      | cons a t =>
        cases h : validarCPF (.str (a :: t)) <;>
          simp [validarDados, idadeJS, textoJS, truthy, menorQue, h]
  | valor n =>
    by_cases h0 : n = 0
    · subst h0
      cases cpf with
      | ausente => rfl
      | nulo => rfl
      | valor s =>
        cases s with
        | nil => rfl
        | cons a t =>
          cases h : validarCPF (.str (a :: t)) <;>
            simp [validarDados, idadeJS, textoJS, truthy, menorQue, h]
    · by_cases h16 : n < 16
      · cases cpf with
        | ausente => simp [validarDados, idadeJS, textoJS, truthy, menorQue, h0, h16]
        | nulo => simp [validarDados, idadeJS, textoJS, truthy, menorQue, h0, h16]
        | valor s =>
          cases s with
          | nil => simp [validarDados, idadeJS, textoJS, truthy, menorQue, h0, h16]
          | cons a t =>
            cases h : validarCPF (.str (a :: t)) <;>
              simp [validarDados, idadeJS, textoJS, truthy, menorQue, h, h0, h16]
      · cases cpf with
        | ausente => simp [validarDados, idadeJS, textoJS, truthy, menorQue, h0, h16]
        | nulo => simp [validarDados, idadeJS, textoJS, truthy, menorQue, h0, h16]
        | valor s =>
          cases s with
          | nil => simp [validarDados, idadeJS, textoJS, truthy, menorQue, h0, h16]
          | cons a t =>
            cases h : validarCPF (.str (a :: t)) <;>
              simp [validarDados, idadeJS, textoJS, truthy, menorQue, h, h0, h16]

/-! ## Lemmas about objects and `consultarApiCep` -/

theorem obterCampo_definirCampo_same (o : Objeto) (k : String) (v : JSValue) :
    obterCampo (definirCampo o k v) k = v := by
  induction o with
  | nil => simp [definirCampo, obterCampo]
  | cons kv t ih =>
    obtain ⟨k1, v1⟩ := kv
    by_cases h : k1 = k
    · simp [definirCampo, obterCampo, h]
    · simp [definirCampo, obterCampo, h, ih]

theorem obterCampo_definirCampo_other (o : Objeto) (k f : String) (v : JSValue) (hf : f ≠ k) :
    obterCampo (definirCampo o k v) f = obterCampo o f := by
  induction o with
  | nil => simp [definirCampo, obterCampo, Ne.symm hf]
  | cons kv t ih =>
    obtain ⟨k1, v1⟩ := kv
    by_cases h : k1 = k
    · subst h
      simp [definirCampo, obterCampo, Ne.symm hf]
    · by_cases h2 : k1 = f
      · subst h2
        simp [definirCampo, obterCampo, hf]
      · simp [definirCampo, obterCampo, h, h2, ih]

/-- The fields of an enriched address. -/
theorem enriquecer_campos (e r : Objeto) :
    obterCampo (enriquecer e r) "uf" = obterCampo r "state" ∧
    obterCampo (enriquecer e r) "cidade" = obterCampo r "city" ∧
    obterCampo (enriquecer e r) "rua" = obterCampo r "street" ∧
    ∀ f, f ≠ "uf" → f ≠ "cidade" → f ≠ "rua" → obterCampo (enriquecer e r) f = obterCampo e f := by
  refine ⟨?_, ?_, ?_, ?_⟩
  · unfold enriquecer
    rw [obterCampo_definirCampo_other _ _ _ _ (by decide),
      obterCampo_definirCampo_other _ _ _ _ (by decide), obterCampo_definirCampo_same]
  · unfold enriquecer
    rw [obterCampo_definirCampo_other _ _ _ _ (by decide), obterCampo_definirCampo_same]
  · unfold enriquecer
    rw [obterCampo_definirCampo_same]
  · intro f h1 h2 h3
    unfold enriquecer
    rw [obterCampo_definirCampo_other _ _ _ _ h3, obterCampo_definirCampo_other _ _ _ _ h2,
      obterCampo_definirCampo_other _ _ _ _ h1]

/-- The loop of `consultarApiCep` when the lookup for position `k` is the first to fail. -/
theorem consultarDesde_abort (api : BrasilAPI) (i18n : Mensagens) (locale : String) :
    ∀ (l : List Objeto) (i k : Nat) (ek : Objeto) (err : ErroJS),
      l[k]? = some ek →
      (∀ j e, j < k → l[j]? = some e → ∃ r, api (i + j) (obterCampo e "CEP") = .ok r) →
      api (i + k) (obterCampo ek "CEP") = .error err →
      (consultarDesde api i18n locale i l).rejeicao =
          some ⟨statusOu err.statusCode 500, textoOu err.message (i18n "ERROR_API_CEP" locale)⟩ ∧
      (consultarDesde api i18n locale i l).enderecos.length = l.length ∧
      (∀ j e r, j < k → l[j]? = some e → api (i + j) (obterCampo e "CEP") = .ok r →
        (consultarDesde api i18n locale i l).enderecos[j]? = some (enriquecer e r)) ∧
      (∀ j, k ≤ j → (consultarDesde api i18n locale i l).enderecos[j]? = l[j]?) ∧
      (consultarDesde api i18n locale i l).consultas =
        (l.take (k + 1)).map (fun e => obterCampo e "CEP") := by
  intro l
  induction l with
  | nil => intro i k ek err hk; simp at hk
  | cons e t ih =>
    intro i k ek err hk hbefore hfail
    cases k with
    | zero =>
      simp only [List.getElem?_cons_zero, Option.some.injEq] at hk
      subst hk
      simp only [Nat.add_zero] at hfail
      have hR : consultarDesde api i18n locale i (e :: t) =
          ⟨some ⟨statusOu err.statusCode 500, textoOu err.message (i18n "ERROR_API_CEP" locale)⟩,
            e :: t, [obterCampo e "CEP"]⟩ := by
        simp only [consultarDesde, hfail]
      rw [hR]
      refine ⟨rfl, rfl, ?_, ?_, ?_⟩
      · intro j e' r hj; omega
      · intro j _; rfl
      · simp
    | succ k =>
      obtain ⟨r0, hr0⟩ := hbefore 0 e (by omega) (by simp)
      simp only [Nat.add_zero] at hr0
      simp only [List.getElem?_cons_succ] at hk
      have hb : ∀ j e', j < k → t[j]? = some e' →
          ∃ r, api (i + 1 + j) (obterCampo e' "CEP") = .ok r := by
        intro j e' hj he
        have := hbefore (j + 1) e' (by omega) (by simpa using he)
        rwa [show i + (j + 1) = i + 1 + j by omega] at this
      have hf : api (i + 1 + k) (obterCampo ek "CEP") = .error err := by
        rwa [show i + (k + 1) = i + 1 + k by omega] at hfail
      obtain ⟨h1, h2, h3, h4, h5⟩ := ih (i + 1) k ek err hk hb hf
      have hR : consultarDesde api i18n locale i (e :: t) =
          ⟨(consultarDesde api i18n locale (i + 1) t).rejeicao,
            enriquecer e r0 :: (consultarDesde api i18n locale (i + 1) t).enderecos,
            obterCampo e "CEP" :: (consultarDesde api i18n locale (i + 1) t).consultas⟩ := by
        simp only [consultarDesde, hr0]
      rw [hR]
      refine ⟨h1, by simp [h2], ?_, ?_, ?_⟩
      · intro j e' r hj he hr
        cases j with
        | zero =>
          simp only [List.getElem?_cons_zero, Option.some.injEq] at he
          subst he
          simp only [Nat.add_zero] at hr
          rw [hr0] at hr
          injection hr with hr
          subst hr
          simp
        | succ j =>
          simp only [List.getElem?_cons_succ] at he ⊢
          exact h3 j e' r (by omega) he (by rwa [show i + (j + 1) = i + 1 + j by omega] at hr)
      · intro j hj
        cases j with
        | zero => omega
        | succ j =>
          simp only [List.getElem?_cons_succ]
          exact h4 j (by omega)
      · simp [h5]

/-! ## Lemmas about storage and `deletarCadastros` -/

theorem proximaFalha_tabelas (m : Mundo) :
    (proximaFalha m).2.pessoas = m.pessoas ∧ (proximaFalha m).2.logDelecoes = m.logDelecoes := by
  unfold proximaFalha
  split <;> exact ⟨rfl, rfl⟩

theorem checarCPFExiste_tabelas (m : Mundo) (cpf : JSString) :
    (checarCPFExiste m cpf).2.pessoas = m.pessoas ∧
    (checarCPFExiste m cpf).2.logDelecoes = m.logDelecoes := by
  have h := proximaFalha_tabelas m
  unfold checarCPFExiste selectOnePessoa
  rcases hp : proximaFalha m with ⟨f, m1⟩
  rw [hp] at h
  cases f <;> exact h

theorem selectOneEndereco_mundo (m : Mundo) (cpf : JSString) :
    (selectOneEndereco m cpf).2 = (proximaFalha m).2 := by
  unfold selectOneEndereco
  rcases proximaFalha m with ⟨f, m1⟩
  cases f <;> rfl

theorem validarEndereco_mundo (m : Mundo) (cpf : JSString) :
    (validarEndereco m cpf).2 = (selectOneEndereco m cpf).2 := by
  unfold validarEndereco
  rcases selectOneEndereco m cpf with ⟨r, m1⟩
  cases r with
  | error e => rfl
  | ok o =>
    cases o with
    | none => rfl
    | some endereco =>
      simp only
      split <;> rfl

theorem validarEndereco_tabelas (m : Mundo) (cpf : JSString) :
    (validarEndereco m cpf).2.pessoas = m.pessoas ∧
    (validarEndereco m cpf).2.logDelecoes = m.logDelecoes := by
  rw [validarEndereco_mundo, selectOneEndereco_mundo]
  exact proximaFalha_tabelas m

/-- The `try` block of `deletarCadastros` always ends in the `ReferenceError` for
`Pessoas` and leaves the state as it was. -/
theorem tentarDelete_throws (m : Mundo) (cpf : JSString) :
    tentarDelete m cpf = (.error ⟨none, "Pessoas is not defined"⟩, m) := by
  have h : resolver escopoDeletarCadastros "Pessoas" = .error ⟨none, "Pessoas is not defined"⟩ := by
    have hn : ¬ ("Pessoas" ∈ escopoDeletarCadastros) := by decide
    unfold resolver
    rw [if_neg hn]
    rfl
  unfold tentarDelete
  rw [h]

/-- One round of the loop of `deletarCadastros`, as an entry added to `result` and a
next state. -/
theorem deletarDesde_cons (i18n : Mensagens) (locale : String) (cpf : JSString)
    (resto : List JSString) (result : List ResultadoDelecao) (m : Mundo) :
    ∃ (msg : String) (m1 : Mundo),
      deletarDesde i18n locale (cpf :: resto) result m =
        deletarDesde i18n locale resto (result ++ [⟨cpf, msg⟩]) m1 ∧
      m1.pessoas = m.pessoas ∧ m1.logDelecoes = m.logDelecoes := by
  have hc := checarCPFExiste_tabelas m cpf
  rcases he : checarCPFExiste m cpf with ⟨existe, m1⟩
  rw [he] at hc
  cases existe with
  | false =>
    exact ⟨i18n "ERROR_CPF_NOT_FOUND" locale, m1,
      by simp only [deletarDesde, he, Bool.not_false, if_true], hc⟩
  | true =>
    have hv := validarEndereco_tabelas m1 cpf
    rcases ha : validarEndereco m1 cpf with ⟨hasAddress, m2⟩
    rw [ha] at hv
    have hv2 : m2.pessoas = m.pessoas ∧ m2.logDelecoes = m.logDelecoes :=
      ⟨hv.1.trans hc.1, hv.2.trans hc.2⟩
    cases hasAddress with
    | true =>
      exact ⟨i18n "ERROR_HAS_ADDRESS" locale, m2,
        by simp only [deletarDesde, he, ha, Bool.not_true, if_true, Bool.false_eq_true,
          if_false], hv2⟩
    | false =>
      exact ⟨textoOu "Pessoas is not defined" (i18n "ERROR_DELETE_FAILED" locale), m2,
        by simp only [deletarDesde, he, ha, Bool.not_true, tentarDelete_throws,
          Bool.false_eq_true, if_false], hv2⟩

/-- The loop of `deletarCadastros` adds one entry per CPF, in order, and deletes nobody. -/
theorem deletarDesde_spec (i18n : Mensagens) (locale : String) :
    ∀ (cpfs : List JSString) (result : List ResultadoDelecao) (m : Mundo),
      (deletarDesde i18n locale cpfs result m).1.map (fun r => r.cpf) =
        result.map (fun r => r.cpf) ++ cpfs ∧
      (deletarDesde i18n locale cpfs result m).2.pessoas = m.pessoas ∧
      (deletarDesde i18n locale cpfs result m).2.logDelecoes = m.logDelecoes := by
  intro cpfs
  induction cpfs with
  | nil => intro result m; simp [deletarDesde]
  | cons cpf resto ih =>
    intro result m
    obtain ⟨msg, m1, heq, hp, hl⟩ := deletarDesde_cons i18n locale cpf resto result m
    rw [heq]
    obtain ⟨h1, h2, h3⟩ := ih (result ++ [⟨cpf, msg⟩]) m1
    refine ⟨?_, h2.trans hp, h3.trans hl⟩
    rw [h1]
    simp

/-! ## Lemmas about `DELETE` on `Pessoas` -/

theorem selectOnePessoa_tabelas (m : Mundo) (cpf : JSString) :
    (selectOnePessoa m cpf).2.pessoas = m.pessoas ∧
    (selectOnePessoa m cpf).2.logDelecoes = m.logDelecoes := by
  have h := proximaFalha_tabelas m
  unfold selectOnePessoa
  rcases hp : proximaFalha m with ⟨f, m1⟩
  rw [hp] at h
  cases f <;> exact h

theorem deleteFromPessoas_log (m : Mundo) (cpf : JSString) :
    (deleteFromPessoas m cpf).2.logDelecoes = m.logDelecoes := by
  have h := (proximaFalha_tabelas m).2
  unfold deleteFromPessoas
  rcases hp : proximaFalha m with ⟨f, m1⟩
  rw [hp] at h
  cases f <;> exact h

/-- A storage delete that removed somebody: a person with that `cpf` was stored, and
none is stored afterwards. -/
theorem deleteFromPessoas_ok (m m1 : Mundo) (cpf : JSString) (n : Nat)
    (h : deleteFromPessoas m cpf = (.ok n, m1)) (hn : n ≠ 0) :
    (∃ p ∈ m.pessoas, p.cpf = cpf) ∧ ∀ p ∈ m1.pessoas, p.cpf ≠ cpf := by
  have ht := (proximaFalha_tabelas m).1
  unfold deleteFromPessoas at h
  rcases hp : proximaFalha m with ⟨f, m0⟩
  rw [hp] at h ht
  have ht0 : m0.pessoas = m.pessoas := ht
  cases f with
  | some e => simp at h
  | none =>
    simp only [Prod.mk.injEq, Except.ok.injEq] at h
    obtain ⟨hlen, hm1⟩ := h
    constructor
    · have hne : (m0.pessoas.filter fun p => p.cpf == cpf) ≠ [] := by
        intro hnil
        rw [hnil] at hlen
        exact hn hlen.symm
      obtain ⟨p, hpmem⟩ := List.exists_mem_of_ne_nil _ hne
      rw [List.mem_filter] at hpmem
      exact ⟨p, ht0 ▸ hpmem.1, by simpa using hpmem.2⟩
    · intro p hpm
      rw [← hm1] at hpm
      simp only [List.mem_filter] at hpm
      simpa using hpm.2

theorem criarLogDelecoes_log (m : Mundo) (cpf : JSString) :
    (∃ m1, criarLogDelecoes m cpf = (.ok (), m1) ∧
      m1.logDelecoes = m.logDelecoes ++ [⟨cpf⟩] ∧ m1.pessoas = m.pessoas) ∨
    (∃ e m1, criarLogDelecoes m cpf = (.error e, m1) ∧ m1.logDelecoes = m.logDelecoes) := by
  have h := proximaFalha_tabelas m
  unfold criarLogDelecoes insertLogDelecoes
  rcases hp : proximaFalha m with ⟨f, m1⟩
  rw [hp] at h
  have h1 : m1.pessoas = m.pessoas := h.1
  have h2 : m1.logDelecoes = m.logDelecoes := h.2
  cases f with
  | none => exact Or.inl ⟨_, rfl, by simp only [h2], h1⟩
  | some e => exact Or.inr ⟨e, m1, rfl, h2⟩

/-- The ways a `DELETE` request can go: it fails and the log is as before, or the
storage delete removed the person, the insert into the log ran to the end, and the
request succeeds with the log one row longer. -/
theorem processarDelete_cases (m : Mundo) (cpf : JSString) :
    (∃ e m1, processarDelete m cpf = (⟨some e⟩, m1) ∧ m1.logDelecoes = m.logDelecoes ∧
      ¬ ∃ n ma mb, deleteFromPessoas m cpf = (.ok n, ma) ∧ n ≠ 0 ∧
        criarLogDelecoes ma cpf = (.ok (), mb)) ∨
    (∃ n ma mb, deleteFromPessoas m cpf = (.ok n, ma) ∧ n ≠ 0 ∧
      criarLogDelecoes ma cpf = (.ok (), mb) ∧
      processarDelete m cpf = (⟨none⟩, mb) ∧
      mb.logDelecoes = m.logDelecoes ++ [⟨cpf⟩] ∧ mb.pessoas = ma.pessoas) := by
  have hd := deleteFromPessoas_log m cpf
  rcases hdel : deleteFromPessoas m cpf with ⟨r, m1⟩
  rw [hdel] at hd
  have hd1 : m1.logDelecoes = m.logDelecoes := hd
  cases r with
  | error e =>
    refine Or.inl ⟨⟨statusOu e.statusCode 500, e.message⟩, m1,
      by simp only [processarDelete, beforeDelete, hdel], hd1, ?_⟩
    rintro ⟨n, ma, mb, h, _⟩
    simp at h
  | ok n =>
    by_cases hn : n = 0
    · have hs := (selectOnePessoa_tabelas m1 cpf).2
      have hno : ¬ ∃ k ma mb, ((Except.ok n : Except ErroJS Nat), m1) = (.ok k, ma) ∧ k ≠ 0 ∧
          criarLogDelecoes ma cpf = (.ok (), mb) := by
        rintro ⟨k, ma, mb, h, hk, _⟩
        simp only [Prod.mk.injEq, Except.ok.injEq] at h
        exact hk (h.1 ▸ hn)
      rcases hsel : selectOnePessoa m1 cpf with ⟨r2, m2⟩
      rw [hsel] at hs
      have hs2 : m2.logDelecoes = m1.logDelecoes := hs
      cases r2 with
      | error e =>
        exact Or.inl ⟨⟨statusOu e.statusCode 500, e.message⟩, m2,
          by simp only [processarDelete, beforeDelete, hdel, hn, if_true, hsel],
          hs2.trans hd1, hno⟩
      | ok o =>
        exact Or.inl ⟨⟨404, "Not Found"⟩, m2,
          by simp only [processarDelete, beforeDelete, hdel, hn, if_true, hsel],
          hs2.trans hd1, hno⟩
    · rcases criarLogDelecoes_log m1 cpf with ⟨m2, hc, hl, hp⟩ | ⟨e, m2, hc, hl⟩
      · refine Or.inr ⟨n, m1, m2, rfl, hn, hc, ?_, by rw [hl, hd1], hp⟩
        simp only [processarDelete, beforeDelete, hdel, hn, if_false, emitirSucesso, hc]
      · refine Or.inl ⟨⟨statusOu e.statusCode 500, e.message⟩, m2, ?_, by rw [hl, hd1], ?_⟩
        · simp only [processarDelete, beforeDelete, hdel, hn, if_false, emitirSucesso, hc]
        · rintro ⟨k, ma, mb, h, _, hok⟩
          simp only [Prod.mk.injEq, Except.ok.injEq] at h
          rw [← h.2, hc] at hok
          simp at hok

/-! ## Claims about `validarCPF` -/

/-- C1. For a string of exactly 11 ASCII decimal digits that are not all the same,
`validarCPF` answers `true` exactly when both check digits fit: the remainder of the
weighted sum of digits 1..9 (weights 10 down to 2) equals digit 10, and the remainder of
the weighted sum of digits 1..10 (weights 11 down to 2) equals digit 11, a remainder being
`(sum * 10) mod 11` with 10 replaced by 0. In particular `"11144477735"` is accepted. -/
theorem validarCPF_check_digits :
    (∀ cpf : JSString, cpf.length = 11 → (∀ c ∈ cpf, isDigitUnit c = true) →
      (¬ ∃ c, cpf = List.replicate 11 c) →
      (validarCPF (.str cpf) = true ↔
        restoSpec (somaSpec cpf 9 11) = digito cpf 10 ∧
        restoSpec (somaSpec cpf 10 12) = digito cpf 11)) ∧
    validarCPF (.str (utf16 "11144477735")) = true := by
  refine ⟨?_, by decide⟩
  intro cpf hlen hd hne
  have hr : regexDigitoRepetido cpf = false := by
    by_contra h
    simp only [Bool.not_eq_false] at h
    obtain ⟨c, _, hc⟩ := (regexDigitoRepetido_iff cpf).mp h
    exact hne ⟨c, hc⟩
  rw [validarCPF_digits cpf hlen hd]
  simp only [hr, true_and, primeiroDigitoOk, segundoDigitoOk]

/-- C1 at `"52998224725"`: the string is accepted because both remainders fit. -/
theorem validarCPF_check_digits_witness :
    validarCPF (.str (utf16 "52998224725")) = true ↔
      restoSpec (somaSpec (utf16 "52998224725") 9 11) = digito (utf16 "52998224725") 10 ∧
      restoSpec (somaSpec (utf16 "52998224725") 10 12) = digito (utf16 "52998224725") 11 :=
  validarCPF_check_digits.1 (utf16 "52998224725") (by decide) (by decide)
    (by
      rintro ⟨c, hc⟩
      have h0 : (utf16 "52998224725")[0]? = (List.replicate 11 c)[0]? := by rw [hc]
      have h1 : (utf16 "52998224725")[1]? = (List.replicate 11 c)[1]? := by rw [hc]
      have e0 : (utf16 "52998224725")[0]? = some 53 := by decide
      have e1 : (utf16 "52998224725")[1]? = some 50 := by decide
      rw [e0] at h0
      rw [e1] at h1
      simp [List.replicate] at h0 h1
      omega)

/-- C6. If `validarCPF` accepts `s`, it rejects every string that differs from `s` only
in the 10th position and every string that differs from `s` only in the 11th position;
and for a given 9-unit beginning at most one pair of check digits is accepted. -/
theorem validarCPF_check_digits_unique :
    (∀ s t : JSString, validarCPF (.str s) = true →
      (∀ i : Nat, i ≠ 9 → t[i]? = s[i]?) → t[9]? ≠ s[9]? → validarCPF (.str t) = false) ∧
    (∀ s t : JSString, validarCPF (.str s) = true →
      (∀ i : Nat, i ≠ 10 → t[i]? = s[i]?) → t[10]? ≠ s[10]? → validarCPF (.str t) = false) ∧
    (∀ (p : JSString) (a b x y : Nat), validarCPF (.str (p ++ [a, b])) = true →
      validarCPF (.str (p ++ [x, y])) = true → a = x ∧ b = y) := by
  refine ⟨?_, ?_, ?_⟩
  · intro c d hc hsame hdiff
    by_contra hv
    simp only [Bool.not_eq_false] at hv
    have : c = d := validarCPF_determined c d hc hv (fun i hi => by
      have := hsame i (by omega)
      simp only [List.getD_eq_getElem?_getD, this])
    exact hdiff (by rw [this])
  · intro c d hc hsame hdiff
    by_contra hv
    simp only [Bool.not_eq_false] at hv
    have : c = d := validarCPF_determined c d hc hv (fun i hi => by
      have := hsame i (by omega)
      simp only [List.getD_eq_getElem?_getD, this])
    exact hdiff (by rw [this])
  · intro p a b x y h1 h2
    have hl := (validarCPF_true_digits _ h1).1
    have hp : p.length = 9 := by simpa using hl
    have : p ++ [a, b] = p ++ [x, y] := validarCPF_determined _ _ h1 h2 (fun i hi => by
      simp only [List.getD_eq_getElem?_getD]
      rw [List.getElem?_append_left (by omega), List.getElem?_append_left (by omega)])
    have := List.append_cancel_left this
    simpa using this

/-- C6 at `"11144477735"`: replacing the 10th digit 3 by 4 gives a rejected string. -/
theorem validarCPF_check_digits_unique_witness :
    validarCPF (.str (utf16 "11144477745")) = false :=
  validarCPF_check_digits_unique.1 (utf16 "11144477735") (utf16 "11144477745") (by decide)
    (by
      intro i hi
      have e : utf16 "11144477745" = [49, 49, 49, 52, 52, 52, 55, 55, 55, 52, 53] := by decide
      have e2 : utf16 "11144477735" = [49, 49, 49, 52, 52, 52, 55, 55, 55, 51, 53] := by decide
      rw [e, e2]
      match i, hi with
      | 0, _ | 1, _ | 2, _ | 3, _ | 4, _ | 5, _ | 6, _ | 7, _ | 8, _ | 10, _ => rfl
      | n + 11, _ => rfl)
    (by decide)

/-- C7. `validarCPF` answers a boolean for every value, and the answer is `false` for
every value that is not a string, for every string whose length is not 11, and for every
string made of one decimal digit written 11 times. -/
theorem validarCPF_fails_closed :
    (∀ v : JSValue, ∃ b : Bool, validarCPF v = b) ∧
    (∀ v : JSValue, (∀ s, v ≠ .str s) → validarCPF v = false) ∧
    (∀ s : JSString, s.length ≠ 11 → validarCPF (.str s) = false) ∧
    (∀ c : Nat, isDigitUnit c = true → validarCPF (.str (List.replicate 11 c)) = false) := by
  refine ⟨fun v => ⟨validarCPF v, rfl⟩, ?_, ?_, ?_⟩
  · intro v hv
    cases v with
    | str s => exact absurd rfl (hv s)
    | outro t => cases t <;> rfl
    | _ => rfl
  · intro s hs
    rw [validarCPF_str]
    simp [hs]
  · intro c hc
    rw [validarCPF_str]
    have : regexDigitoRepetido (List.replicate 11 c) = true :=
      (regexDigitoRepetido_iff _).mpr ⟨c, hc, rfl⟩
    simp only [this, Bool.or_true, if_true]

/-- C7 at the number 11144477735, at the empty string and at `"77777777777"`. -/
theorem validarCPF_fails_closed_witness :
    validarCPF (.num (some 11144477735)) = false ∧ validarCPF (.str []) = false ∧
    validarCPF (.str (List.replicate 11 55)) = false :=
  ⟨validarCPF_fails_closed.2.1 (.num (some 11144477735)) (fun _ h => JSValue.noConfusion h),
   validarCPF_fails_closed.2.2.1 [] (by decide),
   validarCPF_fails_closed.2.2.2 55 (by decide)⟩

/-- C10. A string of length 11 with a code unit that is not an ASCII decimal digit, at
any position, is rejected by `validarCPF`; said the other way round, an accepted string
has only ASCII decimal digits. -/
theorem validarCPF_rejects_non_digit :
    (∀ cpf : JSString, cpf.length = 11 → (∃ c ∈ cpf, isDigitUnit c = false) →
      validarCPF (.str cpf) = false) ∧
    (∀ cpf : JSString, validarCPF (.str cpf) = true → ∀ c ∈ cpf, isDigitUnit c = true) := by
  refine ⟨?_, fun cpf h => (validarCPF_true_digits cpf h).2⟩
  rintro cpf _ ⟨c, hc, hnd⟩
  by_contra hv
  simp only [Bool.not_eq_false] at hv
  have := (validarCPF_true_digits cpf hv).2 c hc
  rw [hnd] at this
  exact Bool.noConfusion this

/-- C10 at `"1114447773x"`, whose last code unit is a letter. -/
theorem validarCPF_rejects_non_digit_witness :
    validarCPF (.str (utf16 "1114447773x")) = false :=
  validarCPF_rejects_non_digit.1 (utf16 "1114447773x") (by decide) ⟨120, by decide, by decide⟩

/-! ## Claims about `validarDados` -/

/-- C4. What `validarDados` does with the ages 0, 15 and 16 and with the CPF
`"12345678900"`: the age 0 passes without any error although it is below 16, the age 15
gets the one age error with status 400, the age 16 gets none, and the CPF gets the one
CPF error with status 400. -/
theorem validarDados_idade_zero (i18n : Mensagens) (locale : String) :
    validarDados i18n locale ⟨.ausente, .valor 0⟩ = [] ∧
    validarDados i18n locale ⟨.ausente, .valor 15⟩ = [⟨400, i18n "ERROR_WRONG_YEAR" locale⟩] ∧
    validarDados i18n locale ⟨.ausente, .valor 16⟩ = [] ∧
    validarDados i18n locale ⟨.valor (utf16 "12345678900"), .ausente⟩ =
      [⟨400, i18n "ERROR_WRONG_CPF" locale⟩] := by
  refine ⟨rfl, rfl, rfl, ?_⟩
  have h : validarCPF (textoJS (.valor (utf16 "12345678900"))) = false := by decide
  have h2 : truthy (textoJS (.valor (utf16 "12345678900"))) = true := by decide
  simp only [validarDados, h, h2, idadeJS, truthy, menorQue]
  rfl

/-! ## Claims about `consultarApiCep` -/

/-- C8. When the lookup for the address at position `k` is the first one that fails,
`consultarApiCep` rejects the request with the status code of the error (500 when it has
none) and its message (the `ERROR_API_CEP` message when it has none); each address before
`k` has `uf`, `cidade` and `rua` set from `state`, `city` and `street` of its response and
its other fields as before; the address at `k` and the later ones are as before; and the
lookups made are those for positions 0 to `k` and no other. -/
theorem consultarApiCep_first_failure (api : BrasilAPI) (i18n : Mensagens) (locale : String)
    (l : List Objeto) (k : Nat) (ek : Objeto) (err : ErroJS)
    (hk : l[k]? = some ek)
    (hbefore : ∀ j e, j < k → l[j]? = some e → ∃ r, api j (obterCampo e "CEP") = .ok r)
    (hfail : api k (obterCampo ek "CEP") = .error err) :
    ∃ R, consultarApiCep api i18n locale (some l) = some R ∧
      (∃ e, R.rejeicao = some e ∧
        (∀ c, err.statusCode = some c → c ≠ 0 → e.status = c) ∧
        (err.statusCode = none ∨ err.statusCode = some 0 → e.status = 500) ∧
        (err.message ≠ "" → e.message = err.message) ∧
        (err.message = "" → e.message = i18n "ERROR_API_CEP" locale)) ∧
      R.enderecos.length = l.length ∧
      (∀ j e r, j < k → l[j]? = some e → api j (obterCampo e "CEP") = .ok r →
        ∃ e1, R.enderecos[j]? = some e1 ∧
          obterCampo e1 "uf" = obterCampo r "state" ∧
          obterCampo e1 "cidade" = obterCampo r "city" ∧
          obterCampo e1 "rua" = obterCampo r "street" ∧
          ∀ f, f ≠ "uf" → f ≠ "cidade" → f ≠ "rua" → obterCampo e1 f = obterCampo e f) ∧
      (∀ j, k ≤ j → R.enderecos[j]? = l[j]?) ∧
      R.consultas = (l.take (k + 1)).map (fun e => obterCampo e "CEP") := by
  have hb : ∀ j e, j < k → l[j]? = some e → ∃ r, api (0 + j) (obterCampo e "CEP") = .ok r := by
    intro j e hj he
    rw [Nat.zero_add]
    exact hbefore j e hj he
  have hf : api (0 + k) (obterCampo ek "CEP") = .error err := by
    rw [Nat.zero_add]
    exact hfail
  obtain ⟨h1, h2, h3, h4, h5⟩ := consultarDesde_abort api i18n locale l 0 k ek err hk hb hf
  refine ⟨consultarDesde api i18n locale 0 l, rfl, ⟨_, h1, ?_, ?_, ?_, ?_⟩, h2, ?_, h4, h5⟩
  · intro c hc hc0
    simp [statusOu, hc, hc0]
  · rintro (hc | hc) <;> simp [statusOu, hc]
  · intro hm
    simp [textoOu, hm]
  · intro hm
    simp [textoOu, hm]
  · intro j e r hj he hr
    refine ⟨enriquecer e r, ?_, enriquecer_campos e r⟩
    exact h3 j e r hj he (by rwa [Nat.zero_add])

/-- C8 on the addresses `01001000` and `00000000`, the second lookup answering 404: the
request is rejected with 404 and the message of the service, the first address has its
state and keeps its `numero`, the second address is as it was, and two lookups were made. -/
theorem consultarApiCep_first_failure_witness :
    ∃ R, consultarApiCep apiExemplo mensagensExemplo "pt" (some enderecosExemplo) = some R ∧
      R.rejeicao = some ⟨404, "CEP nao encontrado"⟩ ∧
      (∃ e1, R.enderecos[0]? = some e1 ∧ obterCampo e1 "uf" = .str (utf16 "SP") ∧
        obterCampo e1 "numero" = .num (some 100)) ∧
      R.enderecos[1]? = some [("CEP", .str (utf16 "00000000"))] ∧
      R.consultas = [.str (utf16 "01001000"), .str (utf16 "00000000")] := by
  obtain ⟨R, hR, ⟨e, he, hs, _, hm, _⟩, _, hbef, haft, hc⟩ :=
    consultarApiCep_first_failure apiExemplo mensagensExemplo "pt" enderecosExemplo 1
      [("CEP", .str (utf16 "00000000"))] ⟨some 404, "CEP nao encontrado"⟩ rfl
      (by
        intro j e hj he
        have hj0 : j = 0 := by omega
        subst hj0
        have : e = [("CEP", .str (utf16 "01001000")), ("numero", .num (some 100))] := by
          simpa [enderecosExemplo] using he.symm
        subst this
        exact ⟨_, rfl⟩)
      rfl
  refine ⟨R, hR, ?_, ?_, ?_, ?_⟩
  · rw [he]
    have h1 := hs 404 rfl (by decide)
    have h2 := hm (by decide)
    cases e
    simp only at h1 h2
    rw [h1, h2]
  · obtain ⟨e1, h1, h2, _, _, h5⟩ := hbef 0 _ _ (by decide) rfl rfl
    refine ⟨e1, h1, ?_, ?_⟩
    · rw [h2]; rfl
    · rw [h5 "numero" (by decide) (by decide) (by decide)]; rfl
  · rw [haft 1 (le_refl 1)]; rfl
  · rw [hc]; rfl

/-! ## Claims about `deletarCadastros` -/

/-- C3. `deletarCadastros` never deletes a person, whatever the list and the state; and
for `[A, B, C]` on a store where `A` is missing, `B` has an address and `C` has none, with
every storage operation working, the entry for `C` carries the message of the
`ReferenceError` for `Pessoas` and `C` is still stored. -/
theorem deletarCadastros_delete_never_runs :
    (∀ (i18n : Mensagens) (locale : String) (cpfs : List JSString) (m : Mundo),
      (deletarCadastros i18n locale cpfs m).2.pessoas = m.pessoas) ∧
    (∀ (i18n : Mensagens) (locale : String),
      deletarCadastros i18n locale [utf16 "A", utf16 "B", utf16 "C"] mundoExemplo =
        (.ok [⟨utf16 "A", i18n "ERROR_CPF_NOT_FOUND" locale⟩,
              ⟨utf16 "B", i18n "ERROR_HAS_ADDRESS" locale⟩,
              ⟨utf16 "C", "Pessoas is not defined"⟩], mundoExemplo)) := by
  refine ⟨?_, ?_⟩
  · intro i18n locale cpfs m
    exact (deletarDesde_spec i18n locale cpfs [] m).2.1
  · intro i18n locale
    rfl

/-- C5. `deletarCadastros` returns for every list, every state and every schedule of
failing storage operations; the list it returns has the length of `cpfs` and its `i`-th
entry carries `cpfs[i]`. -/
theorem deletarCadastros_one_entry_per_cpf (i18n : Mensagens) (locale : String)
    (cpfs : List JSString) (m : Mundo) :
    ∃ result, (deletarCadastros i18n locale cpfs m).1 = .ok result ∧
      result.length = cpfs.length ∧
      result.map (fun r => r.cpf) = cpfs ∧
      ∀ i : Nat, (result[i]?).map (fun r => r.cpf) = cpfs[i]? := by
  have h := (deletarDesde_spec i18n locale cpfs [] m).1
  simp only [List.map_nil, List.nil_append] at h
  refine ⟨(deletarDesde i18n locale cpfs [] m).1, rfl, ?_, h, ?_⟩
  · have := congrArg List.length h
    simpa using this
  · intro i
    rw [← List.getElem?_map, h]

/-! ## Claims about `DELETE` on `Pessoas` -/

/-- C2. `DELETE` of person `B`, for whom `validarEndereco` answers `true`: the request
is not rejected, `B` is deleted from storage and a row for `B` is added to the log. -/
theorem processarDelete_with_address :
    (validarEndereco mundoExemplo (utf16 "B")).1 = true ∧
    (processarDelete mundoExemplo (utf16 "B")).1.erro = none ∧
    (processarDelete mundoExemplo (utf16 "B")).2.pessoas = [⟨utf16 "C", .valor 20, []⟩] ∧
    (processarDelete mundoExemplo (utf16 "B")).2.logDelecoes = [⟨utf16 "B"⟩] := by
  decide

/-- C9. A `DELETE` request that succeeds leaves the log as it was before with one row
added at the end, the row of the `cpf` of the person deleted, who was stored before and
is not stored afterwards; a request that does not succeed leaves the log as it was; in
both cases the log begins with the rows it had. A request succeeds exactly when the
storage delete removed a person and the insert into the log ran to the end. -/
theorem processarDelete_log (m : Mundo) (cpf : JSString) :
    ((processarDelete m cpf).1.erro = none →
      (processarDelete m cpf).2.logDelecoes = m.logDelecoes ++ [⟨cpf⟩] ∧
      (∃ p ∈ m.pessoas, p.cpf = cpf) ∧
      ∀ p ∈ (processarDelete m cpf).2.pessoas, p.cpf ≠ cpf) ∧
    ((processarDelete m cpf).1.erro ≠ none →
      (processarDelete m cpf).2.logDelecoes = m.logDelecoes) ∧
    m.logDelecoes <+: (processarDelete m cpf).2.logDelecoes ∧
    ((processarDelete m cpf).1.erro = none ↔
      ∃ n m1 m2, deleteFromPessoas m cpf = (.ok n, m1) ∧ n ≠ 0 ∧
        criarLogDelecoes m1 cpf = (.ok (), m2)) := by
  rcases processarDelete_cases m cpf with
    ⟨e, m1, h, hl, hno⟩ | ⟨n, ma, mb, hdel, hn, hc, h, hl, hp⟩
  · rw [h]
    refine ⟨fun he => ?_, fun _ => hl, by simp [hl], ?_⟩
    · simp at he
    · constructor
      · intro he
        simp at he
      · intro hex
        exact absurd hex hno
  · rw [h]
    obtain ⟨hbefore, hafter⟩ := deleteFromPessoas_ok m ma cpf n hdel hn
    refine ⟨fun _ => ⟨hl, hbefore, ?_⟩, fun he => ?_, by simp [hl], ?_⟩
    · intro p hpm
      have hpm2 : p ∈ mb.pessoas := hpm
      rw [hp] at hpm2
      exact hafter p hpm2
    · simp at he
    · exact ⟨fun _ => ⟨n, ma, mb, hdel, hn, hc⟩, fun _ => rfl⟩

/-- C9 on the deletion of `C` with every storage operation working: the request
succeeds and the log, empty before, holds the one row for `C`. -/
theorem processarDelete_log_witness :
    (processarDelete mundoExemplo (utf16 "C")).2.logDelecoes =
      mundoExemplo.logDelecoes ++ [⟨utf16 "C"⟩] :=
  ((processarDelete_log mundoExemplo (utf16 "C")).1 (by decide)).1

/-- When the insert into the log throws, the request answers 500 with the message of the
error: `C` is deleted all the same and the log is as before. -/
theorem processarDelete_insert_throws :
    (processarDelete mundoAuditoriaFalha (utf16 "C")).1.erro = some ⟨500, "insert failed"⟩ ∧
    (processarDelete mundoAuditoriaFalha (utf16 "C")).2.pessoas =
      [⟨utf16 "B", .valor 30, [[("CEP", .str (utf16 "01001000"))]]⟩] ∧
    (processarDelete mundoAuditoriaFalha (utf16 "C")).2.logDelecoes =
      mundoAuditoriaFalha.logDelecoes := by
  decide

end CadastroPessoas
